import Mathlib

/-!
Verification of the toil-tracker classification engine, result cache and
scan orchestrator, shallowly embedded from
`src/0.1.1/enhanced_toil_detector.py` and `src/0.1.1/toil_performance.py`.

Modelling conventions:
* Python strings are Lean `String`; `str.lower()` is `pyLower`
  (exact on the ASCII text the configuration and claims use).
* The Python substring operator `sub in s` is `substrIn sub s`.
* `re.search` is modelled by `reSearch`, an interpreter for the regex
  fragment actually occurring in the default configuration: literal
  characters, `.*`, `\d+`, `\.` and the class `[a-f0-9]` repeated at
  least seven times.  On patterns of this fragment the interpreter agrees
  with Python (in particular, on a pattern with no metacharacters it is
  plain substring search).
* `pathlib.PurePath.match` is modelled by `pathMatch`: the pattern is
  split on `/` and its components are glob-matched against the trailing
  components of the file path.
* Dictionaries that the code iterates (the pattern table, the severity
  table) are association lists in insertion order, which is the
  configuration order of a Python dict.
-/

/-- Boolean test that the pattern occurs in `s` starting at character
position `i` (Python slice comparison `s[i:i+len(sub)] == sub`). -/
def substrAtPos (s sub : List Char) (i : Nat) : Bool :=
  (s.drop i).take sub.length == sub

/-- Python substring containment `sub in s` on character lists. -/
def listContainsSub (s sub : List Char) : Bool :=
  (List.range (s.length + 1)).any (fun i => substrAtPos s sub i)

/-- Python substring operator `sub in s` on strings. -/
def substrIn (sub s : String) : Bool :=
  listContainsSub s.data sub.data

/-- Model of `str.lower()` (exact on ASCII text). -/
def pyLower (s : String) : String :=
  String.mk (s.data.map Char.toLower)

/-- Model of `str.upper()` (exact on ASCII text). -/
def pyUpper (s : String) : String :=
  String.mk (s.data.map Char.toUpper)

/-- Atoms of the regex fragment used by the default configuration. -/
inductive RegexAtom where
  | lit (c : Char)
  | anyStar
  | digitsPlus
  | hexPlus7
deriving DecidableEq

/-- Membership in the character class `[a-f0-9]`. -/
def isHexDigitLower (c : Char) : Bool :=
  ("abcdef0123456789".data).contains c

/-- Match a sequence of regex atoms against a prefix of the character
list (the anchored matching underlying `re.search`).  A Kleene star may
consume any characters except a newline, `\d+` at least one ASCII digit,
and the hex class at least seven of `[a-f0-9]`. -/
def matchAtoms : List RegexAtom → List Char → Bool
  | [], _ => true
  | .lit _ :: _, [] => false
  | .lit c :: rest, d :: s => c == d && matchAtoms rest s
  | .anyStar :: rest, s =>
      (List.range (s.length + 1)).any
        (fun k => (s.take k).all (fun c => c != '\n') && matchAtoms rest (s.drop k))
  | .digitsPlus :: rest, s =>
      (List.range (s.length + 1)).any
        (fun k => decide (1 ≤ k) && (s.take k).all Char.isDigit && matchAtoms rest (s.drop k))
  | .hexPlus7 :: rest, s =>
      (List.range (s.length + 1)).any
        (fun k => decide (7 ≤ k) && (s.take k).all isHexDigitLower && matchAtoms rest (s.drop k))

/-- Search semantics of `re.search`: a match may start at any position. -/
def reSearchAtoms (pat : List RegexAtom) (s : List Char) : Bool :=
  (List.range (s.length + 1)).any (fun i => matchAtoms pat (s.drop i))

/-- Translate a pattern string of the supported fragment into atoms.
Characters outside the recognised metasyntax are taken literally. -/
def parseRegex : List Char → List RegexAtom
  | [] => []
  | '.' :: '*' :: rest => .anyStar :: parseRegex rest
  | '\\' :: 'd' :: '+' :: rest => .digitsPlus :: parseRegex rest
  | '\\' :: '.' :: rest => .lit '.' :: parseRegex rest
  | '[' :: 'a' :: '-' :: 'f' :: '0' :: '-' :: '9' :: ']' :: '{' :: '7' :: ',' :: '}' :: rest =>
      .hexPlus7 :: parseRegex rest
  | c :: rest => .lit c :: parseRegex rest

/-- Model of `re.search(pattern, s)` returning whether a match exists,
exact on the regex fragment of the default configuration. -/
def reSearch (pattern s : String) : Bool :=
  reSearchAtoms (parseRegex pattern.data) s.data

/-- Glob matching of one path component against one pattern component
(`fnmatch` semantics for the `*` and `?` wildcards), on fuel so that it
is structurally recursive; every step shortens the pattern or the
string, so `globMatch` below always supplies enough fuel. -/
def globMatchFuel : Nat → List Char → List Char → Bool
  | 0, _, _ => false
  | _ + 1, [], [] => true
  | _ + 1, [], _ :: _ => false
  | fuel + 1, '*' :: ps, s =>
      globMatchFuel fuel ps s ||
        (match s with
         | [] => false
         | _ :: s2 => globMatchFuel fuel ('*' :: ps) s2)
  | fuel + 1, '?' :: ps, _ :: cs => globMatchFuel fuel ps cs
  | fuel + 1, p :: ps, c :: cs => p == c && globMatchFuel fuel ps cs
  | _ + 1, _ :: _, [] => false

/-- Glob matching of one path component against one pattern component. -/
def globMatch (ps s : List Char) : Bool :=
  globMatchFuel (ps.length + s.length + 1) ps s

/-- Split a character list on `/`. -/
def splitSlashAux : List Char → List Char → List (List Char)
  | acc, [] => [acc.reverse]
  | acc, '/' :: rest => acc.reverse :: splitSlashAux [] rest
  | acc, c :: rest => splitSlashAux (c :: acc) rest

/-- Path components of a string, dropping empty and `.` components as
`pathlib` normalisation does. -/
def pathParts (s : String) : List (List Char) :=
  (splitSlashAux [] s.data).filter (fun p => !p.isEmpty && p != ['.'])

/-- Model of `pathlib.Path(file).match(pattern)`: a relative pattern is
matched componentwise against the trailing components of the path. -/
def pathMatch (pattern file : String) : Bool :=
  let patParts := pathParts pattern
  let fileParts := pathParts file
  if patParts.isEmpty then false
  else if fileParts.length < patParts.length then false
  else
    (List.zip patParts (fileParts.drop (fileParts.length - patParts.length))).all
      (fun pr => globMatch pr.1 pr.2)

/-- One toil category of the configuration (`config["patterns"][name]`).
Absent optional fields default to empty lists, as `config.get(k, [])`. -/
structure Rule where
  keywords : List String := []
  regex : List String := []
  file_patterns : List String := []
  exclude : List String := []
deriving DecidableEq

/-- Loop body of `ToilDetector._analyze_commit_message`: iterate the
pattern table in configuration order over the lower-cased message;
keyword test, then regex confirmation (an empty regex list confirms),
then the exclusion test; first rule passing all three returns its
category, a failing rule falls through to the next. -/
def analyzeMessageLoop (ml : String) : List (String × Rule) → Option String
  | [] => none
  | (task_type, cfg) :: rest =>
      if cfg.keywords.any (fun k => substrIn k ml) then
        if cfg.regex.isEmpty || cfg.regex.any (fun p => reSearch p ml) then
          if !(cfg.exclude.any (fun e => substrIn e ml)) then some task_type
          else analyzeMessageLoop ml rest
        else analyzeMessageLoop ml rest
      else analyzeMessageLoop ml rest

/-- Embedding of `ToilDetector._analyze_commit_message`. -/
def analyze_commit_message (patterns : List (String × Rule)) (message : String) : Option String :=
  analyzeMessageLoop (pyLower message) patterns

/-- Full match condition of one rule against the lower-cased message:
some keyword is a substring, the regex list is empty or some regex
matches, and no exclude term is a substring. -/
def ruleMsgMatch (cfg : Rule) (ml : String) : Bool :=
  cfg.keywords.any (fun k => substrIn k ml)
    && (cfg.regex.isEmpty || cfg.regex.any (fun p => reSearch p ml))
    && !(cfg.exclude.any (fun e => substrIn e ml))

/-- Loop body of `ToilDetector._analyze_files_changed`: a rule with an
empty file pattern list is skipped; otherwise the rule matches when some
of its glob patterns matches some changed file. -/
def analyzeFilesLoop (files : List String) : List (String × Rule) → Option String
  | [] => none
  | (task_type, cfg) :: rest =>
      if cfg.file_patterns.isEmpty then analyzeFilesLoop files rest
      else if cfg.file_patterns.any (fun pat => files.any (fun f => pathMatch pat f)) then
        some task_type
      else analyzeFilesLoop files rest

/-- Embedding of `ToilDetector._analyze_files_changed`. -/
def analyze_files_changed (patterns : List (String × Rule)) (files : List String) : Option String :=
  analyzeFilesLoop files patterns

/-- File-based match condition of one rule. -/
def ruleFileMatch (cfg : Rule) (files : List String) : Bool :=
  cfg.file_patterns.any (fun pat => files.any (fun f => pathMatch pat f))

/-- Default severity handed to a category outside the severity lexicon:
the hard-coded table at the end of `ToilDetector._assess_severity`. -/
def severityDefault (task_type : String) : String :=
  if ["manual_fix", "revert", "pipeline_issue"].contains task_type then "HIGH"
  else if ["manual_deploy", "restart"].contains task_type then "MEDIUM"
  else "LOW"

/-- Loop of `ToilDetector._assess_severity` over the severity table in
configuration order: the first level with a trigger word occurring in
the lower-cased message wins and is returned upper-cased. -/
def assessLoop (ml task_type : String) : List (String × List String) → String
  | [] => severityDefault task_type
  | (level, kws) :: rest =>
      if kws.any (fun k => substrIn k ml) then pyUpper level
      else assessLoop ml task_type rest

/-- Embedding of `ToilDetector._assess_severity`. -/
def assess_severity (sevConfig : List (String × List String)) (message task_type : String) :
    String :=
  assessLoop (pyLower message) task_type sevConfig

/-- Commit record parsed from git log (`_parse_git_output` output). -/
structure Commit where
  hash : String
  message : String
  date : String
  author : String
  files : List String
deriving DecidableEq

/-- Toil event as appended to `toil_found` by `scan_git_history`. -/
structure ToilEvent where
  date : String
  repo_path : String
  task_type : String
  description : String
  severity : String
  author : String
  files_changed : String
deriving DecidableEq

/-- Loop body of `ToilDetector.scan_git_history` for one commit: the
message-based pass, then (only when a truthy category was found, file
analysis is enabled and the file list is non-empty) the file-based
pass, whose truthy result overrides the message-based category via
`file_based_type or detected_type`.  The second component instruments
whether `_analyze_files_changed` was consulted at all. -/
def processCommit (patterns : List (String × Rule)) (sevConfig : List (String × List String))
    (include_file_analysis : Bool) (repo_path : String) (commit : Commit) :
    Option ToilEvent × Bool :=
  match analyze_commit_message patterns commit.message with
  | none => (none, false)
  | some detected =>
      if detected = "" then (none, false)
      else
        let runFiles := include_file_analysis && !commit.files.isEmpty
        let file_based := if runFiles then analyze_files_changed patterns commit.files else none
        let final_type :=
          match file_based with
          | some t => if t = "" then detected else t
          | none => detected
        (some { date := commit.date
                repo_path := repo_path
                task_type := final_type
                description := commit.message
                severity := assess_severity sevConfig commit.message final_type
                author := commit.author
                files_changed := String.intercalate "," commit.files },
         runFiles)

/-- Embedding of `ToilDetector.scan_git_history`.  The git subprocess
and `_parse_git_output` are the external History Provider, modelled by
the `gitResult` argument; a failure of that provider is caught by the
surrounding `try` and turned into an empty event list.  The repository
path is taken as already resolved. -/
def scan_git_history (patterns : List (String × Rule)) (sevConfig : List (String × List String))
    (include_file_analysis : Bool) (repo_path : String)
    (gitResult : Except String (List Commit)) : List ToilEvent :=
  match gitResult with
  | .error _ => []
  | .ok commits =>
      commits.filterMap
        (fun c => (processCommit patterns sevConfig include_file_analysis repo_path c).1)

/-- Association list lookup used for the per-path result mapping and the
cache store. -/
def alookup {β : Type} : List (String × β) → String → Option β
  | [], _ => none
  | (k, v) :: rest, key => if k = key then some v else alookup rest key

/-- Embedding of `ToilDetector.scan_multiple_repos`: one scan per
requested path; a scan that raises is caught per path and recorded as an
empty event list (and `scan_git_history` itself already converts a
History Provider failure into an empty list).  The thread pool only
affects completion order of the result dict, not its key-value content,
so the mapping is modelled in request order. -/
def scan_multiple_repos (patterns : List (String × Rule))
    (sevConfig : List (String × List String)) (include_file_analysis : Bool)
    (provider : String → Except String (List Commit)) (repo_paths : List String) :
    List (String × List ToilEvent) :=
  repo_paths.map
    (fun repo =>
      (repo, scan_git_history patterns sevConfig include_file_analysis repo (provider repo)))

/-- Stored cache file: its modification time and its parsed content,
`none` standing for a file whose stored JSON cannot be read or parsed. -/
structure CacheFile where
  mtime : Nat
  content : Option (List ToilEvent)
deriving DecidableEq

/-- The cache directory: one entry per key, as one file per key. -/
abbrev CacheState := List (String × CacheFile)

/-- Removal of the file of one key (`cache_file.unlink()`). -/
def eraseKey : CacheState → String → CacheState
  | [], _ => []
  | (k, f) :: rest, key => if k = key then eraseKey rest key else (k, f) :: eraseKey rest key

/-- Whole-file replacement write under one key. -/
def storeKey (st : CacheState) (key : String) (f : CacheFile) : CacheState :=
  (key, f) :: eraseKey st key

/-- Embedding of `ToilCache._get_cache_key`: the key data combines the
resolved repository path, the window length and the repository
fingerprint (`_get_last_commit_date`).  The md5 hex digest over the key
data is modelled as the key data itself (hash collisions are ignored);
the repository path is taken as already resolved and the live
fingerprint is the `fingerprint` argument. -/
def cacheKey (repo_path : String) (days_back : Nat) (fingerprint : String) : String :=
  repo_path ++ ":" ++ toString days_back ++ ":" ++ fingerprint

/-- Embedding of `ToilCache.get` at time `now`: a missing file is a
miss; a file older than the TTL is unlinked and a miss; a file whose
content does not parse is unlinked and a miss; otherwise the parsed
payload is returned.  No branch raises: the result is always an
`Option`, never an error. -/
def ToilCache.get (ttl now : Nat) (fingerprint : String) (st : CacheState)
    (repo_path : String) (days_back : Nat) : Option (List ToilEvent) × CacheState :=
  let key := cacheKey repo_path days_back fingerprint
  match alookup st key with
  | none => (none, st)
  | some file =>
      if now - file.mtime > ttl then (none, eraseKey st key)
      else
        match file.content with
        | some data => (some data, st)
        | none => (none, eraseKey st key)

/-- Embedding of `ToilCache.set` at time `now`: whole-value write of the
scan result under the derived key (the write succeeding; a failing
write is logged by the source and changes nothing). -/
def ToilCache.set (now : Nat) (fingerprint : String) (st : CacheState)
    (repo_path : String) (days_back : Nat) (data : List ToilEvent) : CacheState :=
  storeKey st (cacheKey repo_path days_back fingerprint) { mtime := now, content := some data }

/-- Embedding of `ToilPerformanceOptimizer.scan_with_caching`: consult
the cache first and return a hit directly; on a miss run the underlying
`scan_git_history` (the `scanFn` argument) and cache its result.  The
third component instruments whether the underlying scan was invoked. -/
def scan_with_caching (ttl now : Nat) (fingerprint : String) (st : CacheState)
    (scanFn : String → Nat → List ToilEvent) (repo_path : String) (days_back : Nat) :
    List ToilEvent × CacheState × Bool :=
  match ToilCache.get ttl now fingerprint st repo_path days_back with
  | (some cached, st2) => (cached, st2, false)
  | (none, st2) =>
      let result := scanFn repo_path days_back
      (result, ToilCache.set now fingerprint st2 repo_path days_back result, true)

/-- Loaded configuration: the two top-level sections the detector reads. -/
structure Config where
  patterns : List (String × Rule)
  severity : List (String × List String)
deriving DecidableEq

/-- User YAML configuration file, modelled by its two observed top-level
keys; `none` means the key is absent from the file. -/
structure UserConfig where
  patterns : Option (List (String × Rule)) := none
  severity : Option (List (String × List String)) := none

/-- The `default_config` dict of `ToilDetector._load_config`, in source
order. -/
def default_config : Config :=
  { patterns :=
      [ ("manual_deploy",
         { keywords := ["deploy", "deployment", "production deploy", "prod deploy"]
           regex := ["deploy.*production", "prod.*deploy", "release.*v\\d+\\.\\d+",
                     "pipeline.*run"]
           file_patterns := ["deploy*.sh", "docker-compose.*.yml", "k8s/*.yaml"]
           exclude := ["test", "staging", "dev"] })
      , ("manual_fix",
         { keywords := ["fix", "hotfix", "emergency", "manual", "patch"]
           regex := ["emergency.*fix", "critical.*bug", "manual.*intervention",
                     "hotfix.*\\d+"]
           file_patterns := ["*.patch", "hotfix*"]
           exclude := ["test", "unit test"] })
      , ("revert",
         { keywords := ["revert", "rollback", "backed out"]
           regex := ["revert.*[a-f0-9]\x7b7,\x7d", "rollback.*version", "backed out.*changes"]
           file_patterns := []
           exclude := [] })
      , ("env_setup",
         { keywords := ["env", "environment", "setup", "config", "configuration"]
           regex := ["environment.*setup", "config.*change", "infrastructure.*update",
                     "terraform.*apply"]
           file_patterns := ["*.tf", "ansible/*", "puppet/*", "chef/*", "Dockerfile"]
           exclude := [] })
      , ("restart",
         { keywords := ["restart", "reboot", "restart service"]
           regex := ["service.*restart", "server.*reboot", "container.*restart"]
           file_patterns := []
           exclude := [] })
      , ("pipeline_issue",
         { keywords := ["pipeline", "ci", "cd", "build"]
           regex := ["pipeline.*failed", "ci.*fix", "build.*broken", "jenkins.*issue"]
           file_patterns := ["*.yml", "Jenkinsfile", ".github/workflows/*"]
           exclude := [] })
      , ("kubernetes",
         { keywords := ["k8s", "kubernetes", "kubectl", "pod"]
           regex := ["kubectl.*apply", "k8s.*restart", "pod.*crash", "deployment.*rollback"]
           file_patterns := ["k8s/*.yaml", "kubernetes/*.yaml"]
           exclude := [] })
      ]
    severity :=
      [ ("high", ["emergency", "critical", "urgent", "outage", "downtime", "security"])
      , ("medium", ["hotfix", "production", "manual", "ci", "pipeline"])
      , ("low", ["update", "config", "restart", "env"])
      ] }

/-- Embedding of `ToilDetector._load_config`: start from the default
config; when a user file is present, `default_config.update(user_config)`
replaces each top-level key the user file defines, wholesale, keeping
the defaults for absent keys.  No rule content is inspected or
validated on this path. -/
def load_config (user : Option UserConfig) : Config :=
  match user with
  | none => default_config
  | some u =>
      { patterns := u.patterns.getD default_config.patterns
        severity := u.severity.getD default_config.severity }

/-- Spec-side definition of severity assessment, written from the spec
wording: check `HIGH`, then `MEDIUM`, then `LOW` against the lexicon on
the lower-cased message; with no lexicon hit fall back to the fixed
per-category default table, and to `LOW` for a category outside it. -/
def assess_severity_spec (message task_type : String) : String :=
  let ml := pyLower message
  if ["emergency", "critical", "urgent", "outage", "downtime", "security"].any
      (fun k => substrIn k ml) then "HIGH"
  else if ["hotfix", "production", "manual", "ci", "pipeline"].any
      (fun k => substrIn k ml) then "MEDIUM"
  else if ["update", "config", "restart", "env"].any
      (fun k => substrIn k ml) then "LOW"
  else if ["manual_fix", "revert", "pipeline_issue"].contains task_type then "HIGH"
  else if ["manual_deploy", "restart"].contains task_type then "MEDIUM"
  else "LOW"

theorem analyzeMessageLoop_cons (ml t : String) (cfg : Rule) (rest : List (String × Rule)) :
    analyzeMessageLoop ml ((t, cfg) :: rest) =
      if ruleMsgMatch cfg ml then some t else analyzeMessageLoop ml rest := by
  simp only [analyzeMessageLoop, ruleMsgMatch]
  by_cases hk : (cfg.keywords.any fun k => substrIn k ml) = true <;>
    by_cases hr : (cfg.regex.isEmpty || cfg.regex.any fun p => reSearch p ml) = true <;>
      by_cases he : (cfg.exclude.any fun e => substrIn e ml) = true <;>
        simp [hk, hr, he]

theorem analyzeMessageLoop_eq_find (ml : String) (ps : List (String × Rule)) :
    analyzeMessageLoop ml ps = (ps.find? fun pr => ruleMsgMatch pr.2 ml).map Prod.fst := by
  induction ps with
  | nil => rfl
  | cons hd tl ih =>
      obtain ⟨t, cfg⟩ := hd
      rw [analyzeMessageLoop_cons]
      by_cases h : ruleMsgMatch cfg ml = true <;>
        simp [List.find?_cons, h, ih]

theorem analyzeFilesLoop_cons (files : List String) (t : String) (cfg : Rule)
    (rest : List (String × Rule)) :
    analyzeFilesLoop files ((t, cfg) :: rest) =
      if ruleFileMatch cfg files then some t else analyzeFilesLoop files rest := by
  simp only [analyzeFilesLoop, ruleFileMatch]
  cases hne : cfg.file_patterns.isEmpty
  · simp [hne]
  · have : cfg.file_patterns = [] := by
      cases hp : cfg.file_patterns
      · rfl
      · rw [hp] at hne; simp at hne
    simp [hne, this]

theorem analyzeFilesLoop_eq_find (files : List String) (ps : List (String × Rule)) :
    analyzeFilesLoop files ps = (ps.find? fun pr => ruleFileMatch pr.2 files).map Prod.fst := by
  induction ps with
  | nil => rfl
  | cons hd tl ih =>
      obtain ⟨t, cfg⟩ := hd
      rw [analyzeFilesLoop_cons]
      by_cases h : ruleFileMatch cfg files = true <;>
        simp [List.find?_cons, h, ih]

theorem analyzeMessageLoop_append_match (ml t : String) (cfg : Rule)
    (l1 l2 : List (String × Rule))
    (hfail : ∀ pr ∈ l1, ruleMsgMatch pr.2 ml = false)
    (hmatch : ruleMsgMatch cfg ml = true) :
    analyzeMessageLoop ml (l1 ++ (t, cfg) :: l2) = some t := by
  induction l1 with
  | nil => rw [List.nil_append, analyzeMessageLoop_cons, if_pos hmatch]
  | cons hd tl ih =>
      obtain ⟨t0, cfg0⟩ := hd
      rw [List.cons_append, analyzeMessageLoop_cons,
        if_neg (by simp [hfail (t0, cfg0) (List.mem_cons_self _ _)])]
      exact ih (fun pr hpr => hfail pr (List.mem_cons_of_mem _ hpr))

/-- C1: Rule precedence.  The classifier iterates the rule table in
configuration order and returns the category of the first rule whose
keyword, confirm-regex and exclusion conditions all hold; in particular
when an earlier and a later rule both fully match, the earlier rule
(the first matching one) supplies the category. -/
theorem rule_precedence_first_match (patterns : List (String × Rule)) (message : String) :
    analyze_commit_message patterns message =
      (patterns.find? fun pr => ruleMsgMatch pr.2 (pyLower message)).map Prod.fst
  ∧ ∀ l1 t cfg l2, patterns = l1 ++ (t, cfg) :: l2 →
      (∀ pr ∈ l1, ruleMsgMatch pr.2 (pyLower message) = false) →
      ruleMsgMatch cfg (pyLower message) = true →
      analyze_commit_message patterns message = some t := by
  constructor
  · exact analyzeMessageLoop_eq_find _ _
  · intro l1 t cfg l2 hps hfail hmatch
    subst hps
    exact analyzeMessageLoop_append_match _ _ _ _ _ hfail hmatch

/-- Witness for C1 at a concrete rule table: the second and third rules
both fully match the message and the second (earlier) one wins. -/
theorem rule_precedence_first_match_witness :
    analyze_commit_message
      [("cat_a", { keywords := ["x"] }), ("cat_b", { keywords := ["y"] }),
       ("cat_c", { keywords := ["y"] })] "y z" = some "cat_b" :=
  (rule_precedence_first_match _ _).2 [("cat_a", { keywords := ["x"] })] "cat_b"
    { keywords := ["y"] } [("cat_c", { keywords := ["y"] })] rfl (by decide) (by decide)

/-- C3 counterexample: the message satisfies the keyword, the confirm
pattern and an exclude term of the first rule, yet classification is
not empty — the later rule still matches and its category is returned.
On a pattern with no metacharacters `reSearch` is exactly substring
search, as `re.search` is. -/
theorem exclude_veto_counterexample :
    substrIn "deploy" "deploy production test rollback" = true ∧
    reSearch "production" "deploy production test rollback" = true ∧
    substrIn "test" "deploy production test rollback" = true ∧
    analyze_commit_message
      [("manual_deploy", { keywords := ["deploy"], regex := ["production"],
                           exclude := ["test"] }),
       ("revert", { keywords := ["rollback"] })]
      "deploy production test rollback" = some "revert" :=
  ⟨by decide, by decide, by decide, by decide⟩

/-- C3 amended: a rule one of whose exclude terms occurs in the
lower-cased message never fully matches (the veto applies to that rule
at any position), and classification is empty exactly when no rule in
the table fully matches; a later rule may therefore still supply a
category. -/
theorem exclude_veto_amended (patterns : List (String × Rule)) (message : String) :
    (∀ t cfg, (t, cfg) ∈ patterns →
        (cfg.exclude.any fun e => substrIn e (pyLower message)) = true →
        ruleMsgMatch cfg (pyLower message) = false)
  ∧ (analyze_commit_message patterns message = none ↔
       ∀ pr ∈ patterns, ruleMsgMatch pr.2 (pyLower message) = false) := by
  constructor
  · intro t cfg _ he
    simp [ruleMsgMatch, he]
  · rw [analyze_commit_message, analyzeMessageLoop_eq_find]
    simp [List.find?_eq_none]

/-- Witness for C3 amended at a concrete vetoed table. -/
theorem exclude_veto_amended_witness :
    analyze_commit_message [("cat_a", { keywords := ["x"], exclude := ["y"] })] "x y" = none :=
  (exclude_veto_amended _ _).2.mpr (by decide)

/-- C4: Severity assessment.  Over the default severity lexicon the
source loop checks `high`, then `medium`, then `low`, returning the
first level with a trigger-word substring hit upper-cased, and falls
back to the hard-coded per-category defaults, `LOW` for an unknown
category — i.e. it coincides with the spec-side cascade (so a message
holding both a HIGH and a LOW trigger word is assessed HIGH). -/
theorem severity_order_and_defaults (message task_type : String) :
    assess_severity default_config.severity message task_type =
      assess_severity_spec message task_type := by
  by_cases h1 : (["emergency", "critical", "urgent", "outage", "downtime", "security"].any
      fun k => substrIn k (pyLower message)) = true <;>
    by_cases h2 : (["hotfix", "production", "manual", "ci", "pipeline"].any
        fun k => substrIn k (pyLower message)) = true <;>
      by_cases h3 : (["update", "config", "restart", "env"].any
          fun k => substrIn k (pyLower message)) = true <;>
        simp [assess_severity, default_config, assessLoop, assess_severity_spec,
          severityDefault, h1, h2, h3] <;>
          decide

/-- C5 counterexample: with the default rule set, the commit with
message "update config file" and changed files ["README.md"] produces
no toil category at all (the claim asserts category env_setup with
severity LOW). -/
theorem worked_example_counterexample :
    processCommit default_config.patterns default_config.severity true "repo"
        { hash := "abc1234", message := "update config file", date := "2024-01-01",
          author := "alice", files := ["README.md"] } = (none, false) := by
  decide

/-- C5 amended: the env_setup keyword "config" does occur in the
message, but none of the env_setup confirm regexes matches it, so the
message-based pass (and with it the whole classification) returns
empty; the severity lexicon alone would have given LOW. -/
theorem worked_example_amended :
    substrIn "config" "update config file" = true ∧
    (["environment.*setup", "config.*change", "infrastructure.*update",
      "terraform.*apply"].any fun p => reSearch p "update config file") = false ∧
    analyze_commit_message default_config.patterns "update config file" = none ∧
    assess_severity default_config.severity "update config file" "env_setup" = "LOW" :=
  ⟨by decide, by decide, by decide, by decide⟩

/-- C2: File-based override.  When the message-based pass finds nothing
the commit yields no event and the file-based pass is not consulted at
all (second component false); when it finds a truthy category and file
analysis is enabled, the first rule in configuration order whose file
glob patterns match some changed file supplies the final category, and
with no file-matching rule the message-based category stands. -/
theorem file_override_resolution (patterns : List (String × Rule))
    (sevConfig : List (String × List String)) (repo_path : String) (c : Commit) :
    (analyze_commit_message patterns c.message = none →
       ∀ b, processCommit patterns sevConfig b repo_path c = (none, false))
  ∧ ∀ detected, analyze_commit_message patterns c.message = some detected → detected ≠ "" →
      ((∀ t cfg, (patterns.find? fun pr => ruleFileMatch pr.2 c.files) = some (t, cfg) →
          t ≠ "" →
          ∃ e, (processCommit patterns sevConfig true repo_path c).1 = some e ∧
            e.task_type = t)
       ∧ ((patterns.find? fun pr => ruleFileMatch pr.2 c.files) = none →
          ∃ e, (processCommit patterns sevConfig true repo_path c).1 = some e ∧
            e.task_type = detected)) := by
  constructor
  · intro hnone b
    simp [processCommit, hnone]
  · intro detected hsome hne
    constructor
    · intro t cfg hfind htne
      have hmatch : ruleFileMatch cfg c.files = true := by
        have h := List.find?_some hfind
        simpa using h
      have hfiles : c.files.isEmpty = false := by
        rcases List.any_eq_true.mp hmatch with ⟨pat, _, hany⟩
        rcases List.any_eq_true.mp hany with ⟨f, hf, _⟩
        cases hcf : c.files
        · rw [hcf] at hf; cases hf
        · rfl
      have hfb : analyze_files_changed patterns c.files = some t := by
        rw [analyze_files_changed, analyzeFilesLoop_eq_find, hfind]
        rfl
      refine ⟨{ date := c.date, repo_path := repo_path, task_type := t,
                description := c.message,
                severity := assess_severity sevConfig c.message t, author := c.author,
                files_changed := String.intercalate "," c.files }, ?_, rfl⟩
      simp [processCommit, hsome, hne, hfiles, hfb, htne]
    · intro hfind
      have hfb : analyze_files_changed patterns c.files = none := by
        rw [analyze_files_changed, analyzeFilesLoop_eq_find, hfind]
        rfl
      refine ⟨{ date := c.date, repo_path := repo_path, task_type := detected,
                description := c.message,
                severity := assess_severity sevConfig c.message detected, author := c.author,
                files_changed := String.intercalate "," c.files }, ?_, rfl⟩
      cases hx : c.files.isEmpty <;> simp [processCommit, hsome, hne, hfb, hx]

/-- Witness for C2 at a concrete table: the message matches the first
category but the changed file matches the file glob of the second category,
which overrides. -/
theorem file_override_resolution_witness :
    ∃ e, (processCommit
        [("cat_msg", { keywords := ["x"] }),
         ("cat_file", { keywords := ["zzz"], file_patterns := ["*.md"] })]
        [] true "repo"
        { hash := "h", message := "x", date := "d", author := "a",
          files := ["README.md"] }).1 = some e ∧ e.task_type = "cat_file" :=
  ((file_override_resolution _ _ _ _).2 "cat_msg" (by decide) (by decide)).1 "cat_file"
    { keywords := ["zzz"], file_patterns := ["*.md"] } (by decide) (by decide)

theorem alookup_storeKey_self (st : CacheState) (key : String) (f : CacheFile) :
    alookup (storeKey st key f) key = some f := by
  simp [storeKey, alookup]

/-- C6 counterexample: at age exactly equal to the TTL the source
comparison `file_age > self.ttl` does not fire, so the payload is still
returned although the age is not below the TTL. -/
theorem cache_ttl_boundary_counterexample :
    (ToilCache.get 3600 3600 "fp"
        [(cacheKey "repo" 30 "fp", { mtime := 0, content := some [] })] "repo" 30).1 =
      some [] ∧
    ¬ ((3600 : Nat) - 0 < 3600) :=
  ⟨by decide, by decide⟩

/-- C6 amended: a get returns a payload only for an entry stored under
the key derived from the current fingerprint whose age is at most the
TTL; an entry strictly older than the TTL, or one whose content cannot
be parsed, is treated as absent and removed (the result is an Option,
never an error); and a changed fingerprint changes the derived key, so
the old entry is a guaranteed miss. -/
theorem cache_entry_validity (ttl now : Nat) (fingerprint : String) (st : CacheState)
    (repo_path : String) (days_back : Nat) :
    (∀ data, (ToilCache.get ttl now fingerprint st repo_path days_back).1 = some data →
       ∃ f, alookup st (cacheKey repo_path days_back fingerprint) = some f ∧
         f.content = some data ∧ now - f.mtime ≤ ttl)
  ∧ (∀ f, alookup st (cacheKey repo_path days_back fingerprint) = some f →
       now - f.mtime > ttl →
       ToilCache.get ttl now fingerprint st repo_path days_back =
         (none, eraseKey st (cacheKey repo_path days_back fingerprint)))
  ∧ (∀ f, alookup st (cacheKey repo_path days_back fingerprint) = some f →
       now - f.mtime ≤ ttl → f.content = none →
       ToilCache.get ttl now fingerprint st repo_path days_back =
         (none, eraseKey st (cacheKey repo_path days_back fingerprint)))
  ∧ (∀ fp2, fp2 ≠ fingerprint →
       cacheKey repo_path days_back fp2 ≠ cacheKey repo_path days_back fingerprint) := by
  refine ⟨?_, ?_, ?_, ?_⟩
  · intro data hget
    rcases hl : alookup st (cacheKey repo_path days_back fingerprint) with _ | f
    · simp [ToilCache.get, hl] at hget
    · refine ⟨f, rfl, ?_, ?_⟩
      · by_cases hage : now - f.mtime > ttl
        · simp [ToilCache.get, hl, hage] at hget
        · rcases hc : f.content with _ | d
          · simp [ToilCache.get, hl, hage, hc] at hget
          · simp [ToilCache.get, hl, hage, hc] at hget
            simp [hc, hget]
      · by_cases hage : now - f.mtime > ttl
        · simp [ToilCache.get, hl, hage] at hget
        · exact Nat.le_of_not_lt hage
  · intro f hl hage
    simp [ToilCache.get, hl, hage]
  · intro f hl hage hc
    simp [ToilCache.get, hl, Nat.not_lt.mpr hage, hc]
  · intro fp2 hne heq
    apply hne
    have h2 : (cacheKey repo_path days_back fp2).data =
        (cacheKey repo_path days_back fingerprint).data := by rw [heq]
    simp only [cacheKey, String.data_append] at h2
    have h3 := List.append_cancel_left h2
    cases fp2
    cases fingerprint
    exact congrArg String.mk h3

/-- Witness for C6 at a concrete expired entry: the get misses and
removes it. -/
theorem cache_entry_validity_witness :
    ToilCache.get 10 100 "f" [(cacheKey "r" 7 "f", { mtime := 0, content := some [] })]
        "r" 7 =
      (none, eraseKey [(cacheKey "r" 7 "f", { mtime := 0, content := some [] })]
        (cacheKey "r" 7 "f")) :=
  (cache_entry_validity 10 100 "f" _ "r" 7).2.1 { mtime := 0, content := some [] }
    (by decide) (by decide)

/-- C7: Cache idempotence.  When a scan misses the cache, performs the
underlying git-history scan and stores its event list, a second scan
within the TTL under the same fingerprint returns the identical list,
leaves the store unchanged and does not invoke the underlying scan at
all (third component false, and the result does not depend on the
second scan function). -/
theorem cache_roundtrip_idempotent (ttl t1 t2 : Nat) (fingerprint : String) (st : CacheState)
    (scanFn scanFn2 : String → Nat → List ToilEvent) (repo_path : String) (days_back : Nat)
    (hscan : (scan_with_caching ttl t1 fingerprint st scanFn repo_path days_back).2.2 = true)
    (httl : t2 - t1 ≤ ttl) :
    scan_with_caching ttl t2 fingerprint
        (scan_with_caching ttl t1 fingerprint st scanFn repo_path days_back).2.1
        scanFn2 repo_path days_back =
      ((scan_with_caching ttl t1 fingerprint st scanFn repo_path days_back).1,
       (scan_with_caching ttl t1 fingerprint st scanFn repo_path days_back).2.1, false) := by
  rcases hget : ToilCache.get ttl t1 fingerprint st repo_path days_back with ⟨o, st2⟩
  rcases o with _ | cached
  · have hfirst : scan_with_caching ttl t1 fingerprint st scanFn repo_path days_back =
        (scanFn repo_path days_back,
         ToilCache.set t1 fingerprint st2 repo_path days_back (scanFn repo_path days_back),
         true) := by
      simp [scan_with_caching, hget]
    rw [hfirst]
    have hlook : alookup
        (ToilCache.set t1 fingerprint st2 repo_path days_back (scanFn repo_path days_back))
        (cacheKey repo_path days_back fingerprint) =
        some { mtime := t1, content := some (scanFn repo_path days_back) } := by
      rw [ToilCache.set]
      exact alookup_storeKey_self _ _ _
    simp [scan_with_caching, ToilCache.get, hlook, Nat.not_lt.mpr httl]
  · exfalso
    have : (scan_with_caching ttl t1 fingerprint st scanFn repo_path days_back).2.2 = false := by
      simp [scan_with_caching, hget]
    rw [this] at hscan
    cases hscan

/-- Witness for C7: a first scan on an empty store at time 0, then a
second at time 5 with a different underlying scan function, which is
not consulted. -/
theorem cache_roundtrip_idempotent_witness :
    scan_with_caching 3600 5 "f"
        (scan_with_caching 3600 0 "f" [] (fun _ _ => []) "r" 30).2.1
        (fun _ _ => [{ date := "d", repo_path := "r", task_type := "t", description := "m",
                       severity := "LOW", author := "a", files_changed := "" }]) "r" 30 =
      ((scan_with_caching 3600 0 "f" [] (fun _ _ => []) "r" 30).1,
       (scan_with_caching 3600 0 "f" [] (fun _ _ => []) "r" 30).2.1, false) :=
  cache_roundtrip_idempotent 3600 0 5 "f" [] _ _ "r" 30 (by decide) (by decide)

/-- C8 counterexample: a user rule set whose confirm regex "(" is not a
parseable regular expression loads without any failure — `_load_config`
merely merges the YAML mapping over the defaults, so the invalid rule
is returned verbatim for the classifier to iterate (the claim asserts
that loading fails before any scanning with an error naming the
category; in the source the `re.error` can only surface inside
`_analyze_commit_message` during a scan, where the catch-all of
`scan_git_history` swallows it into an empty event list). -/
theorem config_failfast_counterexample :
    load_config (some
        { patterns := some [("badcat",
            { keywords := ["x"], regex := ["("], file_patterns := [], exclude := [] })],
          severity := none }) =
      { patterns := [("badcat",
          { keywords := ["x"], regex := ["("], file_patterns := [], exclude := [] })],
        severity := default_config.severity } := by
  rfl

/-- C8 amended: configuration loading performs no validation at all: a
user rule set is installed verbatim, whatever its rules hold (in
particular an unparseable confirm regex survives into the configuration
the classifier iterates), and loading never fails on rule content. -/
theorem config_failfast_amended (cat : String) (cfg : Rule) (rest : List (String × Rule))
    (so : Option (List (String × List String))) :
    (load_config (some { patterns := some ((cat, cfg) :: rest), severity := so })).patterns =
      (cat, cfg) :: rest := rfl

theorem alookup_map_self {β : Type} (g : String → β) (paths : List String) (p : String)
    (hp : p ∈ paths) : alookup (paths.map fun q => (q, g q)) p = some (g p) := by
  induction paths with
  | nil => cases hp
  | cons hd tl ih =>
      simp only [List.map, alookup]
      by_cases h : hd = p
      · subst h
        simp
      · rcases List.mem_cons.mp hp with h1 | h2
        · exact absurd h1.symm h
        · simp [h, ih h2]

/-- C9: Multi-repo isolation.  Scanning a list of distinct paths yields
a mapping with exactly one entry per requested path; a path whose
History Provider access fails is captured as the entry of that path with
the fallback empty event list; the entry of every other path is exactly
what its own scan produced, and it is unchanged under any change of the
provider behaviour at other paths (a failure of one path never aborts or alters
sibling scans). -/
theorem multi_repo_isolation (patterns : List (String × Rule))
    (sevConfig : List (String × List String)) (include_file_analysis : Bool)
    (provider : String → Except String (List Commit)) (repo_paths : List String)
    (hnodup : repo_paths.Nodup) :
    (scan_multiple_repos patterns sevConfig include_file_analysis provider repo_paths).map
        Prod.fst = repo_paths
  ∧ (∀ p ∈ repo_paths,
      alookup (scan_multiple_repos patterns sevConfig include_file_analysis provider
          repo_paths) p =
        some (scan_git_history patterns sevConfig include_file_analysis p (provider p)))
  ∧ (∀ p ∈ repo_paths, ∀ err, provider p = .error err →
      alookup (scan_multiple_repos patterns sevConfig include_file_analysis provider
          repo_paths) p = some [])
  ∧ (∀ provider2 : String → Except String (List Commit), ∀ p ∈ repo_paths,
      provider p = provider2 p →
      alookup (scan_multiple_repos patterns sevConfig include_file_analysis provider2
          repo_paths) p =
        alookup (scan_multiple_repos patterns sevConfig include_file_analysis provider
          repo_paths) p) := by
  refine ⟨?_, ?_, ?_, ?_⟩
  · rw [scan_multiple_repos, List.map_map]
    have hcomp : (Prod.fst ∘ fun repo =>
        (repo, scan_git_history patterns sevConfig include_file_analysis repo
          (provider repo))) = id := rfl
    rw [hcomp, List.map_id]
  · intro p hp
    exact alookup_map_self _ _ _ hp
  · intro p hp err herr
    rw [scan_multiple_repos, alookup_map_self _ _ _ hp, herr]
    rfl
  · intro provider2 p hp heq
    rw [scan_multiple_repos, alookup_map_self _ _ _ hp,
      scan_multiple_repos, alookup_map_self _ _ _ hp, heq]

/-- Witness for C9: two paths, the second failing; its entry is the
empty list while the first keeps its scan result. -/
theorem multi_repo_isolation_witness :
    alookup (scan_multiple_repos [] [] true
        (fun p => if p = "b" then .error "boom" else .ok []) ["a", "b"]) "b" = some [] :=
  (multi_repo_isolation [] [] true _ ["a", "b"] (by decide)).2.2.1 "b" (by decide)
    "boom" (by rfl)

/-- C10: Shallow configuration merge.  A user file defining a top-level
patterns (or severity) key replaces the entire corresponding default
section: every per-category (or per-level) lookup afterwards consults
only the user section, so default categories absent from it are gone
wholesale; a top-level key absent from the user file keeps its full
default section. -/
theorem shallow_config_merge (up : List (String × Rule)) (sv : List (String × List String))
    (uo : Option (List (String × Rule))) (so : Option (List (String × List String)))
    (cat level : String) :
    alookup (load_config (some { patterns := some up, severity := so })).patterns cat =
      alookup up cat
  ∧ (load_config (some { patterns := none, severity := so })).patterns =
      default_config.patterns
  ∧ alookup (load_config (some { patterns := uo, severity := some sv })).severity level =
      alookup sv level
  ∧ (load_config (some { patterns := uo, severity := none })).severity =
      default_config.severity :=
  ⟨rfl, rfl, rfl, rfl⟩
